import Mathlib

/-!
# Verification of the omniagent sandbox package

A shallow embedding of the capability-gated execution engine in
`src/sandbox` (package `sandbox`: `sandbox.go`, the host functions file,
the wazero runtime file and the Docker sandbox file), together with
theorems settling the frozen claims about it.

Conventions of the embedding:
* Go byte slices are `List Nat` (byte values; arithmetic on the values is
  never needed).
* Go `int` fields that the code compares against 0 are `Int`.
* OS-level calls (`filepath.Abs`, `filepath.EvalSymlinks`, `os.ReadFile`,
  `os.MkdirAll`, `os.WriteFile`) and the pure-but-platform-dependent
  `filepath.Dir` / `filepath.Join` are abstracted into an `OS` structure,
  since their behaviour depends on the state of the host file system.
  `filepath.Base` (used by `validateCommand`) is embedded concretely.
* External interactions (the spawned process, the HTTP response, the
  Docker daemon) are abstracted into outcome parameters; the code under
  verification is the deterministic glue around them, translated
  branch-for-branch from the Go source.
* Go functions returning `(T, error)` become products with `Option GoError`
  or `Except GoError T`; a `GoError` separates typed `*ExecutionError`
  values from plain `fmt.Errorf` errors, which matters for several claims.
* Side effects are made observable as an explicit `List Effect` trace
  emitted alongside each operation's return value, in program order.
-/

deriving instance DecidableEq for Except

namespace OmniSandbox

/-- A byte of output or file content. -/
abbrev Byte := Nat

/-- `Capability` from sandbox.go: an enumerated permission string. -/
inductive Capability
  | fs_read
  | fs_write
  | net_http
  | exec_run
deriving DecidableEq, Repr

/-- The string value of each capability constant (CapFSRead etc.). -/
def Capability.toStr : Capability → String
  | .fs_read => "fs_read"
  | .fs_write => "fs_write"
  | .net_http => "net_http"
  | .exec_run => "exec_run"

/-- `Config` from sandbox.go. `Timeout` is kept abstract as an integer
number of nanoseconds (its value is only ever threaded into error
messages and context deadlines, which the embedding abstracts). -/
structure Config where
  capabilities : List Capability
  memoryLimitMB : Int
  fuelLimit : Nat
  timeout : Int
  workingDir : String
  allowedPaths : List String
  allowedHosts : List String
  allowedCommands : List String
  maxOutputBytes : Int
deriving DecidableEq, Repr

/-- `DefaultConfig` from sandbox.go: restrictive defaults
(16 MB memory, 30 s timeout, 1 MiB output cap, no capabilities). -/
def DefaultConfig : Config where
  capabilities := []
  memoryLimitMB := 16
  fuelLimit := 0
  timeout := 30 * 1000000000
  workingDir := ""
  allowedPaths := []
  allowedHosts := []
  allowedCommands := []
  maxOutputBytes := 1024 * 1024

/-- `Config.HasCapability`: `slices.Contains(c.Capabilities, cap)`. -/
def Config.hasCapability (c : Config) (is_cap : Capability) : Bool :=
  c.capabilities.contains is_cap

/-- `ExecutionError` from sandbox.go. The `cause` chain is modelled as an
optional message (`context.DeadlineExceeded` renders as
"context deadline exceeded"). -/
structure ExecutionError where
  kind : String
  message : String
  cause : Option String
deriving DecidableEq, Repr

/-- `NewCapabilityError`: kind "capability", message
`operation %q requires capability %q`. -/
def NewCapabilityError (c : Capability) (operation : String) : ExecutionError where
  kind := "capability"
  message := "operation \"" ++ operation ++ "\" requires capability \"" ++ c.toStr ++ "\""
  cause := none

/-- `NewTimeoutError`: kind "timeout", cause `context.DeadlineExceeded`.
Go renders the duration with %v; the embedding prints the raw nanosecond
count, which is irrelevant to every claim. -/
def NewTimeoutError (timeout : Int) : ExecutionError where
  kind := "timeout"
  message := "execution exceeded timeout of " ++ toString timeout
  cause := some "context deadline exceeded"

/-- A Go `error` value as returned by this package: either a typed
`*ExecutionError` or a plain error built with `fmt.Errorf`. -/
inductive GoError
  | execErr (e : ExecutionError)
  | plain (msg : String)
deriving DecidableEq, Repr

/-- Whether a returned error is a typed `*ExecutionError` (the Go test
does this with a type assertion). -/
def GoError.isExecutionError : GoError → Bool
  | .execErr _ => true
  | .plain _ => false

/-- The kind of a returned error when it is a typed `*ExecutionError`. -/
def GoError.kindOf : GoError → Option String
  | .execErr e => some e.kind
  | .plain _ => none

/-- Observable OS-level side effects, traced in program order. -/
inductive Effect
  | fileRead (path : String)
  | dirCreate (path : String)
  | fileWrite (path : String)
  | httpRequest (url : String)
  | procSpawn (command : String)
  | containerCreate
  | containerStart
  | containerStop
  | containerRemove
  | vmInstantiate
deriving DecidableEq, Repr

/-- Outcome of `filepath.EvalSymlinks` on a given path: resolution
succeeded, failed with an `os.IsNotExist` error, or failed otherwise. -/
inductive ResolveResult
  | ok (p : String)
  | notExist
  | otherErr
deriving DecidableEq, Repr

/-- The host operating-system environment the sandbox code runs against:
`abs` is `filepath.Abs` (assumed to succeed; it only fails when the
working directory cannot be determined), `resolve` is
`filepath.EvalSymlinks`, `dir`/`join` are `filepath.Dir`/`filepath.Join`,
and `readFile`/`mkdirAll`/`writeFile` are the corresponding `os` calls,
returning an error message on failure. -/
structure OS where
  abs : String → String
  resolve : String → ResolveResult
  dir : String → String
  join : String → String → String
  readFile : String → Except String (List Byte)
  mkdirAll : String → Option String
  writeFile : String → List Byte → Option String

/-- `filepath.Base` for Unix paths, embedded concretely: empty path gives
".", trailing separators are stripped, all-separator paths give "/",
otherwise the last path element is returned. -/
def basePath (path : String) : String :=
  if path = "" then "."
  else
    let rev := path.data.reverse.dropWhile (fun c => c == '/')
    if rev = [] then "/"
    else String.mk ((rev.takeWhile (fun c => c != '/')).reverse)

example : basePath "/bin/ls" = "ls" := by decide
example : basePath "ls" = "ls" := by decide
example : basePath "/" = "/" := by decide
example : basePath "a/b/" = "b" := by decide
example : basePath "" = "." := by decide

/-- `strings.Contains(s, sub)`: sub occurs as a contiguous substring of s
(the empty string occurs in every string, as in Go). -/
def goContains (s sub : String) : Bool :=
  s.data.tails.any (fun t => sub.data.isPrefixOf t)

example : goContains "https://api.example.com/x" "api.example.com" = true := by decide
example : goContains "https://other.com" "api.example.com" = false := by decide

/-! ## Path validation (`HostFunctions.validatePath`) -/

/-- The symlink resolution step of `validatePath`: resolve the absolute
path; on an `os.IsNotExist` failure resolve the parent directory instead
and re-append the basename; on any other failure keep the absolute path. -/
def resolvedForValidation (os : OS) (absPath : String) : String :=
  match os.resolve absPath with
  | .ok r => r
  | .notExist =>
    match os.resolve (os.dir absPath) with
    | .ok rp => os.join rp (basePath absPath)
    | _ => absPath
  | .otherErr => absPath

/-- The per-entry normalisation inside `validatePath`'s loop:
`filepath.Abs` (its error ignored) then `filepath.EvalSymlinks`, keeping
the absolute form when resolution fails. -/
def resolveAllowed (os : OS) (entry : String) : String :=
  let a := os.abs entry
  match os.resolve a with
  | .ok r => r
  | _ => a

/-- The acceptance test of `validatePath`'s loop body:
`strings.HasPrefix(resolvedPath, allowedAbs + "/") || resolvedPath == allowedAbs`
(the path separator is "/" on the Unix platforms the sandbox targets;
the prefix test is taken on the character lists of the two strings). -/
def pathWithinAllowed (resolvedPath allowedAbs : String) : Bool :=
  (allowedAbs ++ "/").data.isPrefixOf resolvedPath.data || resolvedPath == allowedAbs

/-- The effective allow-list: `AllowedPaths`, falling back to
`[WorkingDir]` when `AllowedPaths` is empty and `WorkingDir` is set. -/
def effectiveAllowedPaths (cfg : Config) : List String :=
  if cfg.allowedPaths.isEmpty && cfg.workingDir != "" then [cfg.workingDir]
  else cfg.allowedPaths

/-- `HostFunctions.validatePath`: absolutise, resolve symlinks (falling
back to the parent directory for paths that do not exist yet), and check
the resolved path against the effective allow-list, each entry itself
absolutised and symlink-resolved. An empty effective allow-list imposes
no restriction. On rejection: a "capability"-kind error naming the
original path. On success Go returns the resolved path, which the
callers then use for the actual OS call. -/
def validatePath (os : OS) (cfg : Config) (path : String) : Except ExecutionError String :=
  let absPath := os.abs path
  let resolvedPath := resolvedForValidation os absPath
  let allowedPaths := effectiveAllowedPaths cfg
  if allowedPaths.isEmpty then .ok resolvedPath
  else if allowedPaths.any (fun ap => pathWithinAllowed resolvedPath (resolveAllowed os ap)) then
    .ok resolvedPath
  else
    .error { kind := "capability"
             message := "path \"" ++ path ++ "\" is outside allowed directories"
             cause := none }

/-! ## Host and command validation -/

/-- `HostFunctions.validateHost`: an empty `AllowedHosts` allows every
URL; otherwise the URL must contain some allowed entry as a substring
(`strings.Contains` on the whole URL, not a parsed-host comparison). -/
def validateHost (cfg : Config) (url : String) : Option ExecutionError :=
  if cfg.allowedHosts.isEmpty then none
  else if cfg.allowedHosts.any (fun allowed => goContains url allowed) then none
  else some { kind := "capability"
              message := "host not in allowed list for URL: " ++ url
              cause := none }

/-- `HostFunctions.validateCommand`: an empty `AllowedCommands` denies
every command; otherwise the command's base name or its full string must
equal some entry. -/
def validateCommand (cfg : Config) (command : String) : Option ExecutionError :=
  if cfg.allowedCommands.isEmpty then
    some { kind := "capability"
           message := "no commands are allowed (AllowedCommands is empty)"
           cause := none }
  else
    let baseName := basePath command
    if cfg.allowedCommands.any (fun allowed => baseName == allowed || command == allowed) then none
    else some { kind := "capability"
                message := "command \"" ++ command ++ "\" is not in allowed list"
                cause := none }

/-! ## Output-capping writers -/

/-- `limitedWriter` from the host functions file: wraps a `bytes.Buffer`
(the `buf` field) and counts bytes written. The underlying
`bytes.Buffer.Write` never fails and always writes every byte handed to
it, so no error channel is needed. -/
structure LimitedWriter where
  buf : List Byte
  max : Int
  written : Int
deriving DecidableEq, Repr

/-- A fresh `limitedWriter` around an empty buffer, as built by `ExecRun`
and the Docker backend. -/
def LimitedWriter.init (max : Int) : LimitedWriter :=
  { buf := [], max := max, written := 0 }

/-- `limitedWriter.Write`: once `written` has reached a positive `max`,
discard silently (reporting the full length); otherwise truncate the
chunk to the remaining budget `max - written` when a positive `max`
would be exceeded. Returns the updated writer and the reported byte
count; the error result is always nil in Go because the underlying
`bytes.Buffer` never fails. -/
def LimitedWriter.write (w : LimitedWriter) (p : List Byte) : LimitedWriter × Nat :=
  if w.max > 0 && w.written ≥ w.max then (w, p.length)
  else if w.max > 0 && (p.length : Int) > w.max - w.written then
    ({ w with buf := w.buf ++ p.take (w.max - w.written).toNat
              written := w.written + (p.take (w.max - w.written).toNat).length },
     (p.take (w.max - w.written).toNat).length)
  else ({ w with buf := w.buf ++ p, written := w.written + p.length }, p.length)

/-- Feeding a whole sequence of chunks through a `limitedWriter`. -/
def LimitedWriter.writeAll (w : LimitedWriter) (chunks : List (List Byte)) : LimitedWriter :=
  chunks.foldl (fun acc p => (acc.write p).1) w

/-- `limitedBuffer` from the wazero runtime file: a `bytes.Buffer` with a
maximum size, used as the module's stdout/stderr sink. -/
structure LimitedBuffer where
  buf : List Byte
  max : Int
deriving DecidableEq, Repr

/-- `limitedBuffer.Write`: when a positive `max` would be exceeded, write
only the remaining budget `max - len` (or nothing when the buffer is
already full), silently and without error; otherwise append the whole
chunk. Returns the updated buffer and the reported byte count. -/
def LimitedBuffer.write (b : LimitedBuffer) (p : List Byte) : LimitedBuffer × Nat :=
  if b.max > 0 && (b.buf.length : Int) + p.length > b.max then
    if b.max - b.buf.length > 0 then
      ({ b with buf := b.buf ++ p.take (b.max - b.buf.length).toNat },
       (b.max - b.buf.length).toNat)
    else (b, 0)
  else ({ b with buf := b.buf ++ p }, p.length)

/-- Feeding a whole sequence of chunks through a `limitedBuffer`. -/
def LimitedBuffer.writeAll (b : LimitedBuffer) (chunks : List (List Byte)) : LimitedBuffer :=
  chunks.foldl (fun acc p => (acc.write p).1) b

/-! ## The four host operations (`HostFunctions`) -/

/-- `HostFunctions.FSRead`: capability gate, path validation, whole-file
read, and truncation of the returned buffer to `MaxOutputBytes` when that
limit is positive and exceeded. The effect trace records the file read
performed on the resolved path. -/
def FSRead (os : OS) (cfg : Config) (path : String) :
    Except GoError (List Byte) × List Effect :=
  if !cfg.hasCapability .fs_read then
    (.error (.execErr (NewCapabilityError .fs_read "fs_read")), [])
  else
    match validatePath os cfg path with
    | .error e => (.error (.execErr e), [])
    | .ok absPath =>
      match os.readFile absPath with
      | .error m => (.error (.plain ("read file: " ++ m)), [.fileRead absPath])
      | .ok data =>
        if cfg.maxOutputBytes > 0 && (data.length : Int) > cfg.maxOutputBytes then
          (.ok (data.take cfg.maxOutputBytes.toNat), [.fileRead absPath])
        else (.ok data, [.fileRead absPath])

/-- `HostFunctions.FSWrite`: capability gate, path validation,
`os.MkdirAll` on the resolved path's parent, then `os.WriteFile` (whose
error Go returns unwrapped). -/
def FSWrite (os : OS) (cfg : Config) (path : String) (data : List Byte) :
    Option GoError × List Effect :=
  if !cfg.hasCapability .fs_write then
    (some (.execErr (NewCapabilityError .fs_write "fs_write")), [])
  else
    match validatePath os cfg path with
    | .error e => (some (.execErr e), [])
    | .ok absPath =>
      match os.mkdirAll (os.dir absPath) with
      | some m => (some (.plain ("create directory: " ++ m)), [.dirCreate (os.dir absPath)])
      | none =>
        match os.writeFile absPath data with
        | some m => (some (.plain m), [.dirCreate (os.dir absPath), .fileWrite absPath])
        | none => (none, [.dirCreate (os.dir absPath), .fileWrite absPath])

/-- What the network returns for an issued HTTP request: an error from
`client.Do`, or a status code with the full response body available on
the wire. -/
inductive HttpOutcome
  | doErr (msg : String)
  | response (status : Int) (body : List Byte)
deriving DecidableEq, Repr

/-- `HostFunctions.HTTPFetch`: capability gate, host validation, request
construction (`reqErr` is the outcome of `http.NewRequestWithContext`,
which fails before any network contact, e.g. on a malformed method), then
the network call; the response body is read through
`io.LimitReader(body, int64(MaxOutputBytes))`, so at most
`max 0 MaxOutputBytes` bytes are retained. Returns (body, status). -/
def HTTPFetch (cfg : Config) (url : String) (reqErr : Option String)
    (outcome : HttpOutcome) : Except GoError (List Byte × Int) × List Effect :=
  if !cfg.hasCapability .net_http then
    (.error (.execErr (NewCapabilityError .net_http "http_fetch")), [])
  else
    match validateHost cfg url with
    | some e => (.error (.execErr e), [])
    | none =>
      match reqErr with
      | some m => (.error (.plain ("create request: " ++ m)), [])
      | none =>
        match outcome with
        | .doErr m => (.error (.plain ("http request: " ++ m)), [.httpRequest url])
        | .response status body =>
          (.ok (body.take cfg.maxOutputBytes.toNat, status), [.httpRequest url])

/-- The outcome of `exec.Cmd.Run` for a spawned process: clean exit 0;
an `*exec.ExitError` carrying the process's exit code; some other error
while the context's deadline had been exceeded; or some other error
(a spawn/start failure) without a deadline. -/
inductive RunOutcome
  | success
  | exitErr (code : Int)
  | deadline
  | otherErr (msg : String)
deriving DecidableEq, Repr

/-- The quadruple `(stdout, stderr, exitCode, err)` returned by
`HostFunctions.ExecRun`. -/
structure ExecOut where
  stdout : List Byte
  stderr : List Byte
  exitCode : Int
  err : Option GoError
deriving DecidableEq, Repr

/-- `HostFunctions.ExecRun`: capability gate, command validation, then
the subprocess runs with its stdout/stderr streamed through fresh
`limitedWriter`s (`outChunks`/`errChunks` are the chunks the process
emitted on each stream before `Run` returned). A non-zero exit is a
normal return with that exit code and nil error; a deadline yields the
timeout `ExecutionError` with the captured (partial) output alongside;
any other `Run` failure yields a plain wrapped error, also with the
captured output. -/
def ExecRun (cfg : Config) (command : String) (_args : List String) (outcome : RunOutcome)
    (outChunks errChunks : List (List Byte)) : ExecOut × List Effect :=
  if !cfg.hasCapability .exec_run then
    ({ stdout := [], stderr := [], exitCode := 0
       err := some (.execErr (NewCapabilityError .exec_run "exec_run")) }, [])
  else
    match validateCommand cfg command with
    | some e => ({ stdout := [], stderr := [], exitCode := 0, err := some (.execErr e) }, [])
    | none =>
      let stdout := ((LimitedWriter.init cfg.maxOutputBytes).writeAll outChunks).buf
      let stderr := ((LimitedWriter.init cfg.maxOutputBytes).writeAll errChunks).buf
      match outcome with
      | .success =>
        ({ stdout := stdout, stderr := stderr, exitCode := 0, err := none },
         [.procSpawn command])
      | .exitErr c =>
        ({ stdout := stdout, stderr := stderr, exitCode := c, err := none },
         [.procSpawn command])
      | .deadline =>
        ({ stdout := stdout, stderr := stderr, exitCode := -1
           err := some (.execErr (NewTimeoutError cfg.timeout)) }, [.procSpawn command])
      | .otherErr m =>
        ({ stdout := stdout, stderr := stderr, exitCode := -1
           err := some (.plain ("exec: " ++ m)) }, [.procSpawn command])

/-- `ExecutionError.Error()`: `kind: message` with the cause appended
when present. -/
def ExecutionError.render (e : ExecutionError) : String :=
  match e.cause with
  | some c => e.kind ++ ": " ++ e.message ++ ": " ++ c
  | none => e.kind ++ ": " ++ e.message

/-- `Result` from sandbox.go: `Output` is stdout, `Error` is stderr.
`Duration` is wall-clock time and is not modelled. -/
structure Result where
  output : List Byte
  errOutput : List Byte
  exitCode : Int
  memoryUsed : Nat
  fuelConsumed : Nat
deriving DecidableEq, Repr

/-! ## The wazero bytecode backend (`Runtime`) -/

/-- The state of a `Runtime` value: the page ceiling handed to the wazero
runtime configuration (none when `WithMemoryLimitPages` was never
called), the sandbox `Config`, and the compiled-module cache keyed by
name (the module itself represented by its wasm bytes). -/
structure RuntimeModel where
  memoryLimitPages : Option Nat
  config : Config
  modules : List (String × List Byte)
deriving DecidableEq, Repr

/-- `NewRuntime`: sets a page-based memory ceiling of
`MemoryLimitMB * 16` pages of 64 KiB only when `0 < MemoryLimitMB ≤ 4096`
(any other value, including 0 and values above 4096, leaves the wazero
default in place), then instantiates WASI; only the WASI instantiation
can fail (`wasiErr` is its outcome), never the memory configuration. -/
def NewRuntime (cfg : Config) (wasiErr : Option String) : Except GoError RuntimeModel :=
  let pages :=
    if cfg.memoryLimitMB > 0 && cfg.memoryLimitMB ≤ 4096 then
      some (cfg.memoryLimitMB.toNat * 16)
    else none
  match wasiErr with
  | some m => .error (.plain ("instantiate WASI: " ++ m))
  | none => .ok { memoryLimitPages := pages, config := cfg, modules := [] }

/-- `Runtime.Compile`: compile wasm bytes (`compileErr` is the compiler's
outcome) and cache the result under `name`, replacing any previous
entry (`r.modules[name] = compiled`). -/
def RuntimeModel.compile (rt : RuntimeModel) (name : String) (wasm : List Byte)
    (compileErr : Option String) : Except GoError RuntimeModel :=
  match compileErr with
  | some m => .error (.plain ("compile module: " ++ m))
  | none =>
    .ok { rt with modules := (name, wasm) :: rt.modules.filter (fun p => p.1 ≠ name) }

/-- What happened when `executeModule` instantiated and ran a compiled
module: the module ran to completion having written the given chunks to
its stdout/stderr sinks with the given final linear-memory size in
bytes; or instantiation failed while the deadline had elapsed; or it
failed for any other reason. -/
inductive InstOutcome
  | completed (outChunks errChunks : List (List Byte)) (memSize : Nat)
  | deadline
  | failed (msg : String)
deriving DecidableEq, Repr

/-- `Runtime.executeModule`: run a compiled module with stdout/stderr
captured by fresh `limitedBuffer`s capped at `MaxOutputBytes`. An
instantiation error is a "timeout" `ExecutionError` when the context's
deadline had been exceeded and a "runtime" `ExecutionError` wrapping the
cause otherwise; success yields a `Result` with exit code 0, the two
captured buffers, and the module's memory size. -/
def executeModule (cfg : Config) (outcome : InstOutcome) :
    Option Result × Option GoError :=
  match outcome with
  | .deadline => (none, some (.execErr (NewTimeoutError cfg.timeout)))
  | .failed m =>
    (none, some (.execErr { kind := "runtime", message := "module execution failed", cause := some m }))
  | .completed outChunks errChunks memSize =>
    let stdout := (LimitedBuffer.writeAll { buf := [], max := cfg.maxOutputBytes } outChunks).buf
    let stderr := (LimitedBuffer.writeAll { buf := [], max := cfg.maxOutputBytes } errChunks).buf
    (some { output := stdout, errOutput := stderr, exitCode := 0
            memoryUsed := memSize, fuelConsumed := 0 }, none)

/-- `Runtime.Execute`: look the module up in the cache by name; an
unknown name returns `(nil, fmt.Errorf("module not found: %s", name))`
without instantiating anything; otherwise the cached module is run by
`executeModule`. -/
def RuntimeModel.execute (rt : RuntimeModel) (name : String) (outcome : InstOutcome) :
    (Option Result × Option GoError) × List Effect :=
  match rt.modules.find? (fun p => p.1 == name) with
  | none => ((none, some (.plain ("module not found: " ++ name))), [])
  | some _ => (executeModule rt.config outcome, [.vmInstantiate])

/-- `Runtime.ExecuteBytes`: compile the given bytes without caching, then
run them through `executeModule`. -/
def RuntimeModel.executeBytes (rt : RuntimeModel) (compileErr : Option String)
    (outcome : InstOutcome) : (Option Result × Option GoError) × List Effect :=
  match compileErr with
  | some m => ((none, some (.plain ("compile module: " ++ m))), [])
  | none => (executeModule rt.config outcome, [.vmInstantiate])

/-! ## The Docker backend (`DockerSandbox`) -/

/-- `DockerMount` from the Docker sandbox file. -/
structure DockerMount where
  hostPath : String
  containerPath : String
  readOnly : Bool
deriving DecidableEq, Repr

/-- `DockerConfig` from the Docker sandbox file. `Timeout` is an integer
nanosecond count as in `Config`. -/
structure DockerConfig where
  image : String
  mounts : List DockerMount
  networkMode : String
  memoryLimit : Int
  cpuQuota : Int
  timeout : Int
  env : List String
  user : String
  readonlyRootfs : Bool
  capDrop : List String
  capAdd : List String
  securityOpt : List String
  maxOutputBytes : Int
deriving DecidableEq, Repr

/-- `DefaultDockerConfig`: hardened defaults. -/
def DefaultDockerConfig : DockerConfig where
  image := "alpine:latest"
  mounts := []
  networkMode := "none"
  memoryLimit := 256 * 1024 * 1024
  cpuQuota := 50000
  timeout := 30 * 1000000000
  env := []
  user := ""
  readonlyRootfs := true
  capDrop := ["ALL"]
  capAdd := []
  securityOpt := ["no-new-privileges"]
  maxOutputBytes := 1024 * 1024

/-- Outcome of `ContainerWait`: a numeric exit status, a wait error with
the caller's deadline exceeded, or another wait error. -/
inductive WaitOutcome
  | statusCode (code : Int)
  | errDeadline
  | errOther (msg : String)
deriving DecidableEq, Repr

/-- What the Docker daemon does for one `Run` call: the create result
(container ID or error), the start error if any, the wait outcome, and
the demultiplexed log streams (stdout chunks, stderr chunks) or a log
retrieval error. -/
structure DockerDaemon where
  createResult : Except String String
  startErr : Option String
  waitOutcome : WaitOutcome
  logsResult : Except String (List (List Byte) × List (List Byte))
deriving Repr

/-- The mount-validation loop of `DockerSandbox.Run`: each mount's host
path goes through `validatePath` of the attached app-level host
functions; the first failure is returned. -/
def validateMounts (os : OS) (appCfg : Option Config) (mounts : List DockerMount) :
    Option ExecutionError :=
  match appCfg with
  | none => none
  | some c =>
    mounts.findSome? (fun m =>
      match validatePath os c m.hostPath with
      | .error e => some e
      | .ok _ => none)

/-- `DockerSandbox.Run`: app-level command validation, app-level mount
validation (both before any daemon contact), container create, the
deferred force-remove (traced on every path reached after a successful
create), start, wait (a wait error under an elapsed deadline stops the
container and returns the timeout `ExecutionError` with no `Result`),
log retrieval, and demultiplexing through `limitedWriter`s capped at
`MaxOutputBytes` with 0 replaced by the 1 MiB default. A non-zero exit
status is a normal `Result`. `args` only affects the container command
line, which the daemon abstraction absorbs. -/
def dockerRun (os : OS) (dcfg : DockerConfig) (appCfg : Option Config)
    (daemon : DockerDaemon) (command : String) (_args : List String) :
    (Option Result × Option GoError) × List Effect :=
  match (match appCfg with
         | some c => validateCommand c command
         | none => none) with
  | some e => ((none, some (.execErr e)), [])
  | none =>
    match validateMounts os appCfg dcfg.mounts with
    | some e => ((none, some (.plain ("mount validation failed: " ++ e.render))), [])
    | none =>
      match daemon.createResult with
      | .error m => ((none, some (.plain ("create container: " ++ m))), [.containerCreate])
      | .ok _ =>
        match daemon.startErr with
        | some m =>
          ((none, some (.plain ("start container: " ++ m))),
           [.containerCreate, .containerStart, .containerRemove])
        | none =>
          match daemon.waitOutcome with
          | .errDeadline =>
            ((none, some (.execErr (NewTimeoutError dcfg.timeout))),
             [.containerCreate, .containerStart, .containerStop, .containerRemove])
          | .errOther m =>
            ((none, some (.plain ("wait for container: " ++ m))),
             [.containerCreate, .containerStart, .containerRemove])
          | .statusCode code =>
            match daemon.logsResult with
            | .error m =>
              ((none, some (.plain ("get logs: " ++ m))),
               [.containerCreate, .containerStart, .containerRemove])
            | .ok (outChunks, errChunks) =>
              let maxBytes := if dcfg.maxOutputBytes == 0 then 1024 * 1024 else dcfg.maxOutputBytes
              let stdout := ((LimitedWriter.init maxBytes).writeAll outChunks).buf
              let stderr := ((LimitedWriter.init maxBytes).writeAll errChunks).buf
              ((some { output := stdout, errOutput := stderr, exitCode := code
                       memoryUsed := 0, fuelConsumed := 0 }, none),
               [.containerCreate, .containerStart, .containerRemove])

/-- `DockerSandbox.RunShell`: literally `Run(ctx, "sh", ["-c", cmd])`. -/
def dockerRunShell (os : OS) (dcfg : DockerConfig) (appCfg : Option Config)
    (daemon : DockerDaemon) (shellCommand : String) :
    (Option Result × Option GoError) × List Effect :=
  dockerRun os dcfg appCfg daemon "sh" ["-c", shellCommand]

/-! ## Helper lemmas about the capped writers -/

/-- Total number of bytes in a sequence of write chunks. -/
def totalLen (chunks : List (List Byte)) : Nat := (chunks.map List.length).sum

/-- One `limitedWriter.Write` step: the cap is unchanged, the byte
counter keeps tracking the buffer length, and for a positive cap the
buffer grows to `min (old + chunk) cap`. -/
theorem lw_write_spec (w : LimitedWriter) (p : List Byte)
    (hw : w.written = (w.buf.length : Int)) (hle : (w.buf.length : Int) ≤ w.max) :
    (w.write p).1.max = w.max ∧
    (w.write p).1.written = (((w.write p).1.buf.length : Nat) : Int) ∧
    (0 < w.max → ((w.write p).1.buf.length : Int) =
      min ((w.buf.length : Int) + p.length) w.max) := by
  unfold LimitedWriter.write
  split
  · next h =>
    simp only [Bool.and_eq_true, decide_eq_true_eq] at h
    exact ⟨rfl, hw, fun _ => by dsimp only; omega⟩
  · next h =>
    simp only [Bool.and_eq_true, decide_eq_true_eq, not_and, not_le] at h
    split
    · next h2 =>
      simp only [Bool.and_eq_true, decide_eq_true_eq] at h2
      have hlt : w.written < w.max := h h2.1
      refine ⟨rfl, ?_, fun _ => ?_⟩ <;>
        simp only [List.length_append, List.length_take] <;> omega
    · next h2 =>
      simp only [Bool.and_eq_true, decide_eq_true_eq, not_and, not_lt] at h2
      refine ⟨rfl, ?_, fun hpos => ?_⟩ <;> simp only [List.length_append]
      · omega
      · have := h2 hpos
        omega

/-- Folding a chunk sequence through a `limitedWriter` with a positive
cap: the buffer ends at `min (old + total) cap` bytes. -/
theorem lw_writeAll_spec (chunks : List (List Byte)) (w : LimitedWriter)
    (hmax : 0 < w.max) (hw : w.written = (w.buf.length : Int))
    (hle : (w.buf.length : Int) ≤ w.max) :
    ((w.writeAll chunks).buf.length : Int) =
      min ((w.buf.length : Int) + totalLen chunks) w.max := by
  induction chunks generalizing w with
  | nil =>
    simp only [LimitedWriter.writeAll, List.foldl_nil, totalLen, List.map_nil, List.sum_nil]
    omega
  | cons p rest ih =>
    have hs := lw_write_spec w p hw hle
    have hlen := hs.2.2 hmax
    have hmax2 : 0 < (w.write p).1.max := hs.1 ▸ hmax
    have hle2 : (((w.write p).1.buf.length : Nat) : Int) ≤ (w.write p).1.max := by
      rw [hs.1, hlen]; omega
    have := ih (w.write p).1 hmax2 hs.2.1 hle2
    simp only [LimitedWriter.writeAll, List.foldl_cons] at this ⊢
    rw [this, hs.1, hlen]
    simp only [totalLen, List.map_cons, List.sum_cons]
    omega

/-- One `limitedBuffer.Write` step: the cap is unchanged and for a
positive cap the buffer grows to `min (old + chunk) cap`, provided it was
within the cap. -/
theorem lb_write_spec (b : LimitedBuffer) (p : List Byte)
    (hle : (b.buf.length : Int) ≤ b.max) :
    (b.write p).1.max = b.max ∧
    (0 < b.max → ((b.write p).1.buf.length : Int) =
      min ((b.buf.length : Int) + p.length) b.max) := by
  unfold LimitedBuffer.write
  split
  · next h =>
    simp only [Bool.and_eq_true, decide_eq_true_eq] at h
    split
    · next h2 =>
      refine ⟨rfl, fun _ => ?_⟩
      simp only [List.length_append, List.length_take]
      omega
    · next h2 =>
      simp only [not_lt] at h2
      refine ⟨rfl, fun _ => ?_⟩
      dsimp only
      omega
  · next h =>
    simp only [Bool.and_eq_true, decide_eq_true_eq, not_and, not_lt] at h
    refine ⟨rfl, fun hpos => ?_⟩
    have := h hpos
    simp only [List.length_append]
    omega

/-- Folding a chunk sequence through a `limitedBuffer` with a positive
cap: the buffer ends at `min (old + total) cap` bytes. -/
theorem lb_writeAll_spec (chunks : List (List Byte)) (b : LimitedBuffer)
    (hmax : 0 < b.max) (hle : (b.buf.length : Int) ≤ b.max) :
    ((b.writeAll chunks).buf.length : Int) =
      min ((b.buf.length : Int) + totalLen chunks) b.max := by
  induction chunks generalizing b with
  | nil =>
    simp only [LimitedBuffer.writeAll, List.foldl_nil, totalLen, List.map_nil, List.sum_nil]
    omega
  | cons p rest ih =>
    have hs := lb_write_spec b p hle
    have hlen := hs.2 hmax
    have hmax2 : 0 < (b.write p).1.max := hs.1 ▸ hmax
    have hle2 : (((b.write p).1.buf.length : Nat) : Int) ≤ (b.write p).1.max := by
      rw [hs.1, hlen]; omega
    have := ih (b.write p).1 hmax2 hle2
    simp only [LimitedBuffer.writeAll, List.foldl_cons] at this ⊢
    rw [this, hs.1, hlen]
    simp only [totalLen, List.map_cons, List.sum_cons]
    omega

/-! ## A concrete host environment for the witnesses

A toy file system with no symbolic links: every path is its own absolute
form, directories are split off naively at the last separator, and a
couple of fixed files exist. Only the concrete witness theorems use it;
the claim theorems themselves quantify over every `OS`. -/

/-- Naive parent directory: everything before the last "/" (good enough
for the witness paths, which are all absolute and non-degenerate). -/
def toyDir (p : String) : String :=
  String.mk (((p.data.reverse.dropWhile (fun c => c != '/')).drop 1).reverse)

example : toyDir "/data/f.txt" = "/data" := by decide

/-- The toy host environment: no symlinks, `/data/hello` holds the bytes
"hi" and `/data/big` holds five bytes, writes and directory creation
always succeed. -/
def toyOS : OS where
  abs := fun p => p
  resolve := fun p =>
    if p = "/data" || p = "/data/hello" || p = "/data/big" || p = "/tmp" then .ok p
    else .notExist
  dir := toyDir
  join := fun a b => a ++ "/" ++ b
  readFile := fun p =>
    if p = "/data/hello" then .ok [104, 105]
    else if p = "/data/big" then .ok [1, 2, 3, 4, 5]
    else .error "open: no such file or directory"
  mkdirAll := fun _ => none
  writeFile := fun _ _ => none

/-! ## Claim theorems -/

/-- C1. Every gated operation checks its capability first: with the
gating capability absent from the configuration, `FSRead`, `FSWrite`,
`HTTPFetch` and `ExecRun` each return exactly the "capability"-kind
`ExecutionError` naming the operation and the missing capability, with
an empty effect trace — no file is read or created, no directory is
made, no request is issued and no process is spawned, for every host
environment, path, data, URL, command, argument list and outcome. -/
theorem capability_gate_blocks_all_operations (os : OS) (cfg : Config)
    (path : String) (data : List Byte) (url : String) (reqErr : Option String)
    (hout : HttpOutcome) (command : String) (args : List String)
    (outcome : RunOutcome) (oc ec : List (List Byte)) :
    (∀ c op, (NewCapabilityError c op).kind = "capability") ∧
    (cfg.hasCapability .fs_read = false →
      FSRead os cfg path =
        (.error (.execErr (NewCapabilityError .fs_read "fs_read")), [])) ∧
    (cfg.hasCapability .fs_write = false →
      FSWrite os cfg path data =
        (some (.execErr (NewCapabilityError .fs_write "fs_write")), [])) ∧
    (cfg.hasCapability .net_http = false →
      HTTPFetch cfg url reqErr hout =
        (.error (.execErr (NewCapabilityError .net_http "http_fetch")), [])) ∧
    (cfg.hasCapability .exec_run = false →
      ExecRun cfg command args outcome oc ec =
        ({ stdout := [], stderr := [], exitCode := 0
           err := some (.execErr (NewCapabilityError .exec_run "exec_run")) }, [])) := by
  refine ⟨fun _ _ => rfl, fun h => ?_, fun h => ?_, fun h => ?_, fun h => ?_⟩ <;>
    simp [FSRead, FSWrite, HTTPFetch, ExecRun, h]

/-- C1 witness: the default configuration grants no capability, so all
four operations are blocked at concrete inputs. -/
theorem capability_gate_blocks_all_operations_witness :
    DefaultConfig.hasCapability .fs_read = false ∧
    DefaultConfig.hasCapability .exec_run = false ∧
    FSRead toyOS DefaultConfig "/data/hello" =
      (.error (.execErr (NewCapabilityError .fs_read "fs_read")), []) ∧
    FSWrite toyOS DefaultConfig "/data/out" [1] =
      (some (.execErr (NewCapabilityError .fs_write "fs_write")), []) ∧
    HTTPFetch DefaultConfig "https://example.com" none (.response 200 [1]) =
      (.error (.execErr (NewCapabilityError .net_http "http_fetch")), []) ∧
    ExecRun DefaultConfig "ls" [] .success [] [] =
      ({ stdout := [], stderr := [], exitCode := 0
         err := some (.execErr (NewCapabilityError .exec_run "exec_run")) }, []) := by
  have h := capability_gate_blocks_all_operations toyOS DefaultConfig "/data/hello" [1]
    "https://example.com" none (.response 200 [1]) "ls" [] .success [] []
  exact ⟨by decide, by decide, h.2.1 (by decide), h.2.2.1 (by decide),
    h.2.2.2.1 (by decide), h.2.2.2.2 (by decide)⟩

/-- C2. `validatePath` accepts a path exactly when the effective
allow-list (allowed paths, else the working directory, else no
restriction) is empty, or the path's symlink-resolved absolute form
(with the parent resolved and the basename re-appended when the path
does not exist) has some entry's resolved absolute form followed by the
path separator as a prefix or equals it outright — so "/data2" is not
matched by an entry "/data". On rejection the error has kind
"capability" and its message names the original, unresolved path. -/
theorem validatePath_accepts_iff (os : OS) (cfg : Config) (path : String) :
    ((∃ s, validatePath os cfg path = .ok s) ↔
      (effectiveAllowedPaths cfg = [] ∨
        ∃ a ∈ effectiveAllowedPaths cfg,
          ((resolveAllowed os a) ++ "/").data.isPrefixOf
              (resolvedForValidation os (os.abs path)).data = true ∨
            resolvedForValidation os (os.abs path) = resolveAllowed os a)) ∧
    (∀ e, validatePath os cfg path = .error e →
      e.kind = "capability" ∧
      e.message = "path \"" ++ path ++ "\" is outside allowed directories") := by
  simp only [validatePath]
  by_cases hE : (effectiveAllowedPaths cfg).isEmpty = true
  · rw [if_pos hE]
    refine ⟨⟨fun _ => Or.inl (List.isEmpty_iff.mp hE), fun _ => ⟨_, rfl⟩⟩, ?_⟩
    intro e he
    cases he
  · rw [if_neg hE]
    have hcond : ((effectiveAllowedPaths cfg).any fun ap =>
        pathWithinAllowed (resolvedForValidation os (os.abs path)) (resolveAllowed os ap)) = true ↔
        ∃ a ∈ effectiveAllowedPaths cfg,
          ((resolveAllowed os a) ++ "/").data.isPrefixOf
              (resolvedForValidation os (os.abs path)).data = true ∨
            resolvedForValidation os (os.abs path) = resolveAllowed os a := by
      simp only [List.any_eq_true, pathWithinAllowed, Bool.or_eq_true, beq_iff_eq]
    by_cases hA : ((effectiveAllowedPaths cfg).any fun ap =>
        pathWithinAllowed (resolvedForValidation os (os.abs path)) (resolveAllowed os ap)) = true
    · rw [if_pos hA]
      refine ⟨⟨fun _ => Or.inr (hcond.mp hA), fun _ => ⟨_, rfl⟩⟩, ?_⟩
      intro e he
      cases he
    · rw [if_neg hA]
      refine ⟨⟨fun hs => ?_, fun hr => ?_⟩, ?_⟩
      · obtain ⟨s, hs⟩ := hs
        cases hs
      · rcases hr with h0 | h0
        · exact absurd (List.isEmpty_iff.mpr h0) hE
        · exact absurd (hcond.mpr h0) hA
      · intro e he
        cases he
        exact ⟨rfl, rfl⟩

/-- The configuration used by the C2 witness: allow-list ["/data"]. -/
def cfg2w : Config := { DefaultConfig with capabilities := [.fs_read], allowedPaths := ["/data"] }

/-- The rejection produced by the C2 witness. -/
def err2w : ExecutionError :=
  { kind := "capability"
    message := "path \"/data2\" is outside allowed directories"
    cause := none }

/-- C2 witness: with allow-list ["/data"], the non-existent "/data2" is
rejected with a "capability" error naming "/data2" (the separator
boundary prevents the naive prefix match), while "/data/hello" inside
the allowed directory is accepted. -/
theorem validatePath_accepts_iff_witness :
    validatePath toyOS cfg2w "/data2" = .error err2w ∧
    err2w.kind = "capability" ∧
    err2w.message = "path \"/data2\" is outside allowed directories" ∧
    validatePath toyOS cfg2w "/data/hello" = .ok "/data/hello" := by
  have h := (validatePath_accepts_iff toyOS cfg2w "/data2").2 err2w (by decide)
  exact ⟨by decide, h.1, h.2, by decide⟩

/-- Helper for `urlHost`: drop everything up to and including the first
"://" of a character list, if one occurs. -/
def dropSchemeSep : List Char → Option (List Char)
  | ':' :: '/' :: '/' :: rest => some rest
  | _ :: rest => dropSchemeSep rest
  | [] => none

/-- Modelled from the spec: the host component of a URL in its standard
form — the text after "://" up to the first "/", "?" or "#", with any
":port" suffix removed. The code itself never parses hosts (it uses a
raw substring test); this definition only expresses the claim's notion
of "the URL's host" for the counterexample. -/
def urlHost (url : String) : String :=
  let rest :=
    match dropSchemeSep url.data with
    | some r => r
    | none => url.data
  let hostPort := rest.takeWhile (fun c => c != '/' && c != '?' && c != '#')
  String.mk (hostPort.takeWhile (fun c => c != ':'))

example : urlHost "https://api.example.com/x?q=1" = "api.example.com" := by decide

/-- The configuration used for C3: net_http granted, one allowed host. -/
def cfg3 : Config :=
  { DefaultConfig with capabilities := [.net_http], allowedHosts := ["api.example.com"]
                       maxOutputBytes := 1024 }

/-- C3 counterexample: the claim says every URL whose host is absent
from `allowed_hosts` is rejected before any request. But the check is
`strings.Contains` on the whole URL, so a URL with host "evil.com" that
merely mentions the allowed entry in its query string passes validation
and the request is issued (the effect trace contains the HTTP request,
and the fetch returns the response). -/
theorem hostcheck_not_host_based :
    urlHost "https://evil.com/?q=api.example.com" = "evil.com" ∧
    cfg3.allowedHosts.contains "evil.com" = false ∧
    validateHost cfg3 "https://evil.com/?q=api.example.com" = none ∧
    HTTPFetch cfg3 "https://evil.com/?q=api.example.com" none (.response 200 [42]) =
      (.ok ([42], 200), [.httpRequest "https://evil.com/?q=api.example.com"]) := by
  refine ⟨by decide, by decide, by decide, by decide⟩

/-- C3 amended: with `net_http` granted and a non-empty `allowed_hosts`
list, `HTTPFetch` rejects — with a "capability"-kind error and no
request issued — exactly those URLs that contain no allowed entry as a
substring of the whole URL; a URL containing an allowed entry (in
particular, a standard-form URL whose host equals an allowed entry)
passes the host check. -/
theorem hostcheck_substring_allowlist (cfg : Config) (url : String)
    (reqErr : Option String) (outcome : HttpOutcome) :
    (cfg.allowedHosts ≠ [] → cfg.hasCapability .net_http = true →
      (∀ a ∈ cfg.allowedHosts, goContains url a = false) →
      HTTPFetch cfg url reqErr outcome =
        (.error (.execErr
          { kind := "capability"
            message := "host not in allowed list for URL: " ++ url
            cause := none }), [])) ∧
    ((∃ a ∈ cfg.allowedHosts, goContains url a = true) →
      validateHost cfg url = none) := by
  constructor
  · intro hne hcap hnone
    have hE : cfg.allowedHosts.isEmpty = false := by
      cases h : cfg.allowedHosts with
      | nil => exact absurd h hne
      | cons a l => simp [h]
    have hA : cfg.allowedHosts.any (fun allowed => goContains url allowed) = false := by
      simp only [List.any_eq_false]
      intro a ha
      simp [hnone a ha]
    simp [HTTPFetch, validateHost, hcap, hE, hA]
  · intro ⟨a, ha, hc⟩
    have hE : cfg.allowedHosts.isEmpty = false := by
      cases h : cfg.allowedHosts with
      | nil => rw [h] at ha; cases ha
      | cons b l => simp [h]
    have hA : cfg.allowedHosts.any (fun allowed => goContains url allowed) = true :=
      List.any_eq_true.mpr ⟨a, ha, hc⟩
    simp [validateHost, hE, hA]

/-- C3 amended witness: "https://other.com" contains no allowed entry
and is rejected without a request; "https://api.example.com/x" contains
the allowed entry and passes the host check. -/
theorem hostcheck_substring_allowlist_witness :
    HTTPFetch cfg3 "https://other.com" none (.response 200 [42]) =
      (.error (.execErr
        { kind := "capability"
          message := "host not in allowed list for URL: https://other.com"
          cause := none }), []) ∧
    validateHost cfg3 "https://api.example.com/x" = none := by
  refine ⟨(hostcheck_substring_allowlist cfg3 "https://other.com" none
      (.response 200 [42])).1 (by decide) (by decide) ?_,
    (hostcheck_substring_allowlist cfg3 "https://api.example.com/x" none
      (.response 200 [42])).2 ⟨"api.example.com", by decide, by decide⟩⟩
  intro a ha
  have : a = "api.example.com" := by
    have := List.mem_singleton.mp ha
    simpa [cfg3, DefaultConfig] using ha
  subst this
  decide

/-- The configuration used for the C4 witness with an empty command
allow-list. -/
def cfg4e : Config := { DefaultConfig with capabilities := [.exec_run] }

/-- The configuration used for the C4 witness with allow-list ["ls"]. -/
def cfg4n : Config :=
  { DefaultConfig with capabilities := [.exec_run], allowedCommands := ["ls"] }

/-- C4. With `exec_run` granted: an empty `AllowedCommands` makes
`ExecRun` fail with the "capability"-kind error and an empty effect
trace (no subprocess spawned), for every command, argument list and
outcome; with a non-empty list, command validation passes exactly when
the command's base name or its full string equals some entry. -/
theorem execrun_command_allowlist (cfg : Config) (command : String)
    (args : List String) (outcome : RunOutcome) (oc ec : List (List Byte))
    (hcap : cfg.hasCapability .exec_run = true) :
    (cfg.allowedCommands = [] →
      ExecRun cfg command args outcome oc ec =
        ({ stdout := [], stderr := [], exitCode := 0
           err := some (.execErr
             { kind := "capability"
               message := "no commands are allowed (AllowedCommands is empty)"
               cause := none }) }, [])) ∧
    (cfg.allowedCommands ≠ [] →
      (validateCommand cfg command = none ↔
        ∃ a ∈ cfg.allowedCommands, basePath command = a ∨ command = a)) := by
  constructor
  · intro h
    simp [ExecRun, validateCommand, hcap, h]
  · intro hne
    have hE : cfg.allowedCommands.isEmpty = false := by
      cases h : cfg.allowedCommands with
      | nil => exact absurd h hne
      | cons a l => simp [h]
    simp only [validateCommand, hE, Bool.false_eq_true, if_false]
    by_cases hA : cfg.allowedCommands.any
        (fun allowed => basePath command == allowed || command == allowed) = true
    · rw [if_pos hA]
      simp only [true_iff]
      simpa [List.any_eq_true, Bool.or_eq_true, beq_iff_eq] using hA
    · rw [if_neg hA]
      constructor
      · intro he
        cases he
      · intro hex
        exact absurd (List.any_eq_true.mpr (by
          obtain ⟨a, ha, hor⟩ := hex
          exact ⟨a, ha, by simpa [Bool.or_eq_true, beq_iff_eq] using hor⟩)) hA

/-- C4 witness: with an empty allow-list even "ls" is denied without a
spawn; with allow-list ["ls"], "/bin/ls" passes validation through its
base name. -/
theorem execrun_command_allowlist_witness :
    ExecRun cfg4e "ls" [] .success [] [] =
      ({ stdout := [], stderr := [], exitCode := 0
         err := some (.execErr
           { kind := "capability"
             message := "no commands are allowed (AllowedCommands is empty)"
             cause := none }) }, []) ∧
    validateCommand cfg4n "/bin/ls" = none := by
  refine ⟨(execrun_command_allowlist cfg4e "ls" [] .success [] [] (by decide)).1 (by decide),
    ((execrun_command_allowlist cfg4n "/bin/ls" [] .success [] [] (by decide)).2
      (by decide)).mpr ⟨"ls", by decide, Or.inl (by decide)⟩⟩

/-- The configuration used for C5: exec_run granted, one allowed command. -/
def cfg5 : Config :=
  { DefaultConfig with capabilities := [.exec_run], allowedCommands := ["mycmd"] }

/-- The daemon behaviour used by the C5 counterexample: create and start
succeed, then the wait fails with the caller's deadline exceeded. -/
def daemonTimeout : DockerDaemon where
  createResult := .ok "c1"
  startErr := none
  waitOutcome := .errDeadline
  logsResult := .ok ([[104]], [])

/-- C5 counterexample: the claim requires a deadline exceeded while
running to yield a timeout error "with the partial stdout/stderr
captured so far still attached" in both backends, and start/spawn
failures to yield "runtime"-kind errors. On the Docker backend a wait
deadline returns a nil `Result` — no output is attached (logs are never
read) — and a spawn failure in the host exec backend is a plain wrapped
error, not an `ExecutionError` of any kind. -/
theorem exec_error_taxonomy_counterexample :
    (dockerRun toyOS DefaultDockerConfig none daemonTimeout "sleep" ["10"]).1 =
      (none, some (.execErr (NewTimeoutError DefaultDockerConfig.timeout))) ∧
    (NewTimeoutError DefaultDockerConfig.timeout).kind = "timeout" ∧
    (ExecRun cfg5 "mycmd" [] (.otherErr "fork: permission denied") [] []).1.err =
      some (.plain "exec: fork: permission denied") ∧
    GoError.isExecutionError (.plain "exec: fork: permission denied") = false := by
  refine ⟨by decide, by decide, by decide, by decide⟩

/-- C5 amended: for an allowed command, a non-zero exit code is a normal
result with nil error in both backends. A deadline exceeded while
running yields the timeout-kind `ExecutionError`; the host exec backend
returns the partial stdout/stderr captured so far alongside it, while
the Docker backend returns it with no `Result` (and hence no partial
output). Process-spawn failures (host) and container create failures
(Docker) yield plain wrapped errors, not `ExecutionError`s. -/
theorem exec_error_taxonomy (cfg : Config) (command : String) (args : List String)
    (oc ec : List (List Byte)) (code : Int) (os : OS) (dcfg : DockerConfig)
    (hcap : cfg.hasCapability .exec_run = true)
    (hcmd : validateCommand cfg command = none) :
    (ExecRun cfg command args (.exitErr code) oc ec).1 =
      { stdout := ((LimitedWriter.init cfg.maxOutputBytes).writeAll oc).buf
        stderr := ((LimitedWriter.init cfg.maxOutputBytes).writeAll ec).buf
        exitCode := code, err := none } ∧
    (ExecRun cfg command args .deadline oc ec).1 =
      { stdout := ((LimitedWriter.init cfg.maxOutputBytes).writeAll oc).buf
        stderr := ((LimitedWriter.init cfg.maxOutputBytes).writeAll ec).buf
        exitCode := -1, err := some (.execErr (NewTimeoutError cfg.timeout)) } ∧
    (∀ m, (ExecRun cfg command args (.otherErr m) oc ec).1.err =
      some (.plain ("exec: " ++ m))) ∧
    (∀ cid outChunks errChunks,
      dockerRun os dcfg none
        { createResult := .ok cid, startErr := none
          waitOutcome := .statusCode code, logsResult := .ok (outChunks, errChunks) }
        command args =
      ((some { output := ((LimitedWriter.init
                  (if dcfg.maxOutputBytes == 0 then 1024 * 1024
                   else dcfg.maxOutputBytes)).writeAll outChunks).buf
               errOutput := ((LimitedWriter.init
                  (if dcfg.maxOutputBytes == 0 then 1024 * 1024
                   else dcfg.maxOutputBytes)).writeAll errChunks).buf
               exitCode := code, memoryUsed := 0, fuelConsumed := 0 }, none),
       [.containerCreate, .containerStart, .containerRemove])) ∧
    (∀ cid logs,
      (dockerRun os dcfg none
        { createResult := .ok cid, startErr := none
          waitOutcome := .errDeadline, logsResult := logs } command args).1 =
      (none, some (.execErr (NewTimeoutError dcfg.timeout)))) ∧
    (∀ m s wo logs,
      (dockerRun os dcfg none
        { createResult := .error m, startErr := s
          waitOutcome := wo, logsResult := logs } command args).1 =
      (none, some (.plain ("create container: " ++ m)))) := by
  refine ⟨?_, ?_, fun m => ?_, fun cid outChunks errChunks => ?_,
      fun cid logs => ?_, fun m s wo logs => ?_⟩ <;>
    simp [ExecRun, dockerRun, validateMounts, hcap, hcmd]

/-- C5 witness: a command exiting 42 yields exit code 42 with nil error,
and a deadline yields the timeout error with the partial stdout ([104])
still attached, on the host exec backend. -/
theorem exec_error_taxonomy_witness :
    (ExecRun cfg5 "mycmd" [] (.exitErr 42) [[104]] []).1 =
      { stdout := [104], stderr := [], exitCode := 42, err := none } ∧
    (ExecRun cfg5 "mycmd" [] .deadline [[104]] []).1 =
      { stdout := [104], stderr := [], exitCode := -1
        err := some (.execErr (NewTimeoutError cfg5.timeout)) } := by
  have h := exec_error_taxonomy cfg5 "mycmd" [] [[104]] [] 42 toyOS
    DefaultDockerConfig (by decide) (by decide)
  exact ⟨h.1.trans (by decide), h.2.1.trans (by decide)⟩

/-- The configuration used for the C6 witness: fs_read granted, output
capped at three bytes. -/
def cfg6 : Config :=
  { DefaultConfig with capabilities := [.fs_read], allowedPaths := ["/data"]
                       maxOutputBytes := 3 }

/-- C6. With a positive cap and total written bytes exceeding it, both
capped writers retain exactly the cap, never more (and they have no
error channel: each write reports success). `FSRead` on a file larger
than the cap returns, without error, a buffer of exactly the cap's
length. -/
theorem output_truncated_to_max (max : Int) (chunks : List (List Byte))
    (os : OS) (cfg : Config) (path ap : String) (data : List Byte)
    (hmax : 0 < max) (htot : max < (totalLen chunks : Int)) :
    ((((LimitedWriter.init max).writeAll chunks).buf.length : Int) = max ∧
      (((LimitedBuffer.writeAll { buf := [], max := max } chunks).buf.length : Int) = max)) ∧
    (cfg.maxOutputBytes = max → cfg.hasCapability .fs_read = true →
      validatePath os cfg path = .ok ap → os.readFile ap = .ok data →
      max < (data.length : Int) →
      FSRead os cfg path = (.ok (data.take max.toNat), [.fileRead ap]) ∧
      ((data.take max.toNat).length : Int) = max) := by
  constructor
  · constructor
    · have h := lw_writeAll_spec chunks (LimitedWriter.init max)
        (by simp only [LimitedWriter.init]; omega) rfl
        (by simp only [LimitedWriter.init, List.length_nil]; omega)
      simp only [LimitedWriter.init] at h ⊢
      rw [h]
      simp only [List.length_nil]
      omega
    · have h := lb_writeAll_spec chunks { buf := [], max := max }
        (by simpa using hmax) (by simp only [List.length_nil]; omega)
      rw [h]
      simp only [List.length_nil]
      omega
  · intro hmo hcap hvp hrf hlen
    have hguard : (decide (max > 0) && decide ((data.length : Int) > max)) = true := by
      simp only [Bool.and_eq_true, decide_eq_true_eq]
      omega
    constructor
    · simp only [FSRead, hcap, Bool.not_true, Bool.false_eq_true, if_false,
        hvp, hrf, hmo]
      rw [hguard]
      simp
    · rw [List.length_take]
      omega

/-- C6 witness: cap 3, five bytes written in chunks of two and three:
both writers retain exactly three bytes; reading the five-byte file
"/data/big" under a three-byte cap returns exactly its first three
bytes with no error. -/
theorem output_truncated_to_max_witness :
    ((((LimitedWriter.init 3).writeAll [[1, 2], [3, 4, 5]]).buf.length : Int) = 3 ∧
      (((LimitedBuffer.writeAll { buf := [], max := 3 } [[1, 2], [3, 4, 5]]).buf.length : Int) = 3)) ∧
    FSRead toyOS cfg6 "/data/big" = (.ok [1, 2, 3], [.fileRead "/data/big"]) := by
  have h := output_truncated_to_max 3 [[1, 2], [3, 4, 5]] toyOS cfg6 "/data/big"
    "/data/big" [1, 2, 3, 4, 5] (by decide) (by decide)
  have h2 := h.2 rfl (by decide) (by decide) (by decide) (by decide)
  exact ⟨h.1, h2.1.trans (by decide)⟩

/-- A configuration with `MemoryLimitMB = 0`, as C7 discusses. -/
def cfg7z : Config := { DefaultConfig with memoryLimitMB := 0 }

/-- A configuration with `MemoryLimitMB = 5000`, above the 4096 ceiling. -/
def cfg7big : Config := { DefaultConfig with memoryLimitMB := 5000 }

/-- C7 counterexample: the claim says a `MemoryLimitMB` of 0 results in
the 16 MB default (256 pages) being enforced, and a limit above 4096 MB
is rejected. In the code the guard `0 < MB ≤ 4096` simply skips the
`WithMemoryLimitPages` call in both cases: with 0 no page ceiling is
configured at all (not 256 pages), and with 5000 runtime creation
succeeds with no ceiling instead of failing. -/
theorem memory_limit_config_counterexample :
    NewRuntime cfg7z none =
      .ok { memoryLimitPages := none, config := cfg7z, modules := [] } ∧
    NewRuntime cfg7big none =
      .ok { memoryLimitPages := none, config := cfg7big, modules := [] } := by
  exact ⟨by decide, by decide⟩

/-- C7 amended: the wazero page ceiling is configured as
`MemoryLimitMB * 16` pages (64 KiB each) exactly when
`0 < MemoryLimitMB ≤ 4096`; a value of 0 or above 4096 leaves the
ceiling unconfigured and runtime creation still succeeds. The 16 MB
default comes only from `DefaultConfig`, not from `NewRuntime`. -/
theorem memory_limit_pages_rule (cfg : Config) :
    (0 < cfg.memoryLimitMB → cfg.memoryLimitMB ≤ 4096 →
      NewRuntime cfg none =
        .ok { memoryLimitPages := some (cfg.memoryLimitMB.toNat * 16)
              config := cfg, modules := [] }) ∧
    (cfg.memoryLimitMB ≤ 0 ∨ 4096 < cfg.memoryLimitMB →
      NewRuntime cfg none =
        .ok { memoryLimitPages := none, config := cfg, modules := [] }) ∧
    DefaultConfig.memoryLimitMB = 16 := by
  refine ⟨fun h1 h2 => ?_, fun h => ?_, rfl⟩
  · have hcond : (decide (cfg.memoryLimitMB > 0) &&
        decide (cfg.memoryLimitMB ≤ 4096)) = true := by
      simp only [Bool.and_eq_true, decide_eq_true_eq]
      exact ⟨h1, h2⟩
    simp only [NewRuntime]
    rw [hcond]
    simp
  · have hcond : (decide (cfg.memoryLimitMB > 0) &&
        decide (cfg.memoryLimitMB ≤ 4096)) = false := by
      simp only [Bool.and_eq_false_iff, decide_eq_false_iff_not, not_lt, not_le]
      omega
    simp only [NewRuntime]
    rw [hcond]
    simp

/-- C7 amended witness: the default configuration (16 MB) yields a
ceiling of 256 pages. -/
theorem memory_limit_pages_rule_witness :
    NewRuntime DefaultConfig none =
      .ok { memoryLimitPages := some 256, config := DefaultConfig, modules := [] } := by
  have h := (memory_limit_pages_rule DefaultConfig).1 (by decide) (by decide)
  exact h.trans (by decide)

/-- Configuration for C8's http case: net_http granted, cap 0. -/
def cfg8http : Config :=
  { DefaultConfig with capabilities := [.net_http], maxOutputBytes := 0 }

/-- Configuration for C8's fs_read case: fs_read granted, cap 0. -/
def cfg8read : Config :=
  { DefaultConfig with capabilities := [.fs_read], allowedPaths := ["/data"]
                       maxOutputBytes := 0 }

/-- C8: the claim (and the spec) says `max_output_bytes = 0` behaves as
the 1 MiB default for every capped operation. In the host functions it
does not: `HTTPFetch` reads the body through `io.LimitReader(body, 0)`
and returns zero bytes; `FSRead` skips truncation entirely and returns
the whole oversized file; the exec/wasm writers with `max = 0` retain
everything unboundedly. (Only the Docker backend substitutes the 1 MiB
default for 0.) This theorem evaluates the code at the failing inputs. -/
theorem zero_cap_not_defaulted :
    HTTPFetch cfg8http "https://example.com" none
        (.response 200 [104, 101, 108, 108, 111]) =
      (.ok ([], 200), [.httpRequest "https://example.com"]) ∧
    FSRead toyOS cfg8read "/data/big" =
      (.ok [1, 2, 3, 4, 5], [.fileRead "/data/big"]) ∧
    ((LimitedWriter.init 0).writeAll [[1], [2], [3]]).buf = [1, 2, 3] ∧
    (LimitedBuffer.writeAll { buf := [], max := 0 } [[1], [2], [3]]).buf = [1, 2, 3] := by
  exact ⟨by decide, by decide, by decide, by decide⟩

/-- Configuration for the C9 witness: "sh" is not an allowed command. -/
def cfg9 : Config :=
  { DefaultConfig with capabilities := [.exec_run], allowedCommands := ["cat"] }

/-- Configuration for the C9 witness with "sh" allowed. -/
def cfg9sh : Config :=
  { DefaultConfig with capabilities := [.exec_run], allowedCommands := ["sh"] }

/-- C9. `RunShell` is definitionally `Run` applied to "sh" ["-c", cmd];
consequently, with an app-level policy attached whose `AllowedCommands`
does not contain "sh", every `RunShell` call returns no `Result` and a
"capability"-kind `ExecutionError` with an empty effect trace (the
daemon is never contacted), regardless of the shell line; and when "sh"
is an entry, command validation passes. -/
theorem runshell_is_run_sh (os : OS) (dcfg : DockerConfig) (appCfg : Option Config)
    (daemon : DockerDaemon) (s : String) :
    dockerRunShell os dcfg appCfg daemon s =
      dockerRun os dcfg appCfg daemon "sh" ["-c", s] ∧
    (∀ c : Config, "sh" ∉ c.allowedCommands →
      (dockerRunShell os dcfg (some c) daemon s).1.1 = none ∧
      (dockerRunShell os dcfg (some c) daemon s).1.2.bind GoError.kindOf =
        some "capability" ∧
      (dockerRunShell os dcfg (some c) daemon s).2 = []) ∧
    (∀ c : Config, "sh" ∈ c.allowedCommands → validateCommand c "sh" = none) := by
  have hbase : basePath "sh" = "sh" := by decide
  refine ⟨rfl, fun c hns => ?_, fun c hmem => ?_⟩
  · have hA : (c.allowedCommands.any
        (fun allowed => basePath "sh" == allowed || "sh" == allowed)) = false := by
      simp only [hbase, List.any_eq_false, Bool.or_eq_true, beq_iff_eq, not_or]
      intro a ha
      constructor <;> (rintro rfl; exact hns ha)
    by_cases hE : c.allowedCommands.isEmpty = true
    · refine ⟨?_, ?_, ?_⟩ <;>
        simp [dockerRunShell, dockerRun, validateCommand, hE, GoError.kindOf]
    · refine ⟨?_, ?_, ?_⟩ <;>
        simp [dockerRunShell, dockerRun, validateCommand, hE, hA, GoError.kindOf]
  · have hE : c.allowedCommands.isEmpty = false := by
      cases h : c.allowedCommands with
      | nil => rw [h] at hmem; cases hmem
      | cons b l => simp [h]
    have hA : (c.allowedCommands.any
        (fun allowed => basePath "sh" == allowed || "sh" == allowed)) = true := by
      refine List.any_eq_true.mpr ⟨"sh", hmem, ?_⟩
      simp [hbase]
    simp [validateCommand, hE, hA]

/-- C9 witness: with allow-list ["cat"], a `RunShell` of "echo hi"
yields no result and a "capability"-kind error with no daemon contact;
with allow-list ["sh"] the command validation passes. -/
theorem runshell_is_run_sh_witness :
    (dockerRunShell toyOS DefaultDockerConfig (some cfg9) daemonTimeout "echo hi").1.1 = none ∧
    (dockerRunShell toyOS DefaultDockerConfig (some cfg9) daemonTimeout "echo hi").1.2.bind
      GoError.kindOf = some "capability" ∧
    (dockerRunShell toyOS DefaultDockerConfig (some cfg9) daemonTimeout "echo hi").2 = [] ∧
    validateCommand cfg9sh "sh" = none := by
  have h := runshell_is_run_sh toyOS DefaultDockerConfig (some cfg9) daemonTimeout "echo hi"
  have h2 := h.2.1 cfg9 (by decide)
  exact ⟨h2.1, h2.2.1, h2.2.2, h.2.2 cfg9sh (by decide)⟩

/-- C10. Executing a module name that was never compiled into the cache
returns a nil result and the plain error "module not found: name" — not
an `ExecutionError` of any kind — and instantiates nothing (empty
effect trace). -/
theorem execute_unknown_module (rt : RuntimeModel) (name : String)
    (outcome : InstOutcome)
    (h : rt.modules.find? (fun p => p.1 == name) = none) :
    rt.execute name outcome =
      ((none, some (.plain ("module not found: " ++ name))), []) ∧
    (∀ g, (rt.execute name outcome).1.2 = some g → g.isExecutionError = false) := by
  constructor
  · simp [RuntimeModel.execute, h]
  · intro g hg
    simp [RuntimeModel.execute, h] at hg
    rw [← hg]
    rfl

/-- The runtime value used by the C10 witness: empty module cache. -/
def rt0 : RuntimeModel :=
  { memoryLimitPages := some 256, config := DefaultConfig, modules := [] }

/-- C10 witness: executing the unknown name "missing" on an empty cache
yields the plain not-found error, no result and no instantiation. -/
theorem execute_unknown_module_witness :
    rt0.execute "missing" (.completed [] [] 0) =
      ((none, some (.plain "module not found: missing")), []) ∧
    GoError.isExecutionError (.plain "module not found: missing") = false := by
  have h := execute_unknown_module rt0 "missing" (.completed [] [] 0) (by decide)
  exact ⟨h.1.trans (by decide), by decide⟩

end OmniSandbox
